import Mathlib

/-!
# Verification of the ScaleOfSelfDiscipline GPIO core

A shallow embedding, in Lean 4, of the pin-ownership registry
(`gpio_manager.py`), the HX711 ADC bit-bang protocol (`hx711.py`) and the
buzzer tone synthesis loop (`beep.py`), together with theorems settling the
specification claims about them.

The embedding models the repository's own `MockGPIO` fallback (the pure,
fully in-repo implementation of the GPIO layer): pin levels are a
dictionary, `setup` drives a pin low, `output`/`input` write/read the
dictionary, and no call raises.  State-mutating Python methods become
functions `state → state × result`.
-/

namespace SelfDiscipline

/-! ## Dictionaries

Python `dict`s are embedded as association lists with insertion-order
append semantics; `List.lookup` plays the role of `d[k]` / `k in d`. -/

/-- `d[k] = v` on a Python dict: replace the binding if the key is present,
append it otherwise. -/
def dictSet : List (Nat × Nat) → Nat → Nat → List (Nat × Nat)
  | [], k, v => [(k, v)]
  | (k', v') :: t, k, v =>
    if k' = k then (k, v) :: t else (k', v') :: dictSet t k v

/-- `del d[k]` on a Python dict (first binding removed). -/
def dictDel : List (Nat × String) → Nat → List (Nat × String)
  | [], _ => []
  | (k', v') :: t, k => if k' = k then t else (k', v') :: dictDel t k

/-! ## GPIO manager (`src/gpio_manager.py`) -/

/-- The two numbering schemes `GPIO.BOARD` / `GPIO.BCM`. -/
inductive GpioMode
  | board
  | bcm
deriving DecidableEq, Repr

/-- Pin direction constants `GPIO.OUT` / `GPIO.IN`. -/
inductive PinDir
  | out
  | inDir
deriving DecidableEq, Repr

/-- The mutable state of the `GPIOManager` singleton plus the backing
`MockGPIO` pin-level dictionary (`_pin_states`) and mock mode (`_mode`). -/
structure ManagerState where
  allocated_pins : List (Nat × String)
  gpio_mode : Option GpioMode
  gpio_initialized : Bool
  mock_mode : Option GpioMode
  pin_states : List (Nat × Nat)
deriving DecidableEq, Repr

/-- State of a freshly constructed manager (`GPIOManager.__init__`). -/
def freshManager : ManagerState :=
  { allocated_pins := []
    gpio_mode := none
    gpio_initialized := false
    mock_mode := none
    pin_states := [] }

/-- The `bcm_to_board` lookup table built in `GPIOManager.__init__`. -/
def bcm_to_board : List (Nat × Nat) :=
  [(2, 3), (3, 5), (4, 7), (5, 29), (6, 31), (7, 26), (8, 24), (9, 21),
   (10, 19), (11, 23), (12, 32), (13, 33), (14, 8), (15, 10), (16, 36),
   (17, 11), (18, 12), (19, 35), (20, 38), (21, 40), (22, 15), (23, 16),
   (24, 18), (25, 22), (26, 37), (27, 13)]

/-- The inverted table `board_to_bcm = {v: k for k, v in bcm_to_board}`. -/
def board_to_bcm : List (Nat × Nat) :=
  bcm_to_board.map (fun p => (p.2, p.1))

/-- `GPIOManager.init_gpio(mode)`: initialize the GPIO system (only once).
Returns the new state and the boolean result.  The mock `GPIO.setmode` call
is recorded in `mock_mode`; in the mock fallback nothing raises, so the
`except` branch is unreachable. -/
def init_gpio (s : ManagerState) (mode : GpioMode) : ManagerState × Bool :=
  if s.gpio_initialized then
    if s.gpio_mode ≠ some mode then (s, false) else (s, true)
  else
    ({ s with mock_mode := some mode
              gpio_mode := some mode
              gpio_initialized := true }, true)

/-- `GPIOManager._normalize_pin(pin)`: the pin itself under either known
mode, `None` when the mode is unset. -/
def normalize_pin (s : ManagerState) (pin : Nat) : Option Nat :=
  if s.gpio_mode = some GpioMode.board then some pin
  else if s.gpio_mode = some GpioMode.bcm then some pin
  else none

/-- `GPIOManager.allocate_pin(pin, module_name, pin_mode)`.  The mock
`GPIO.setup` drives the configured pin low (`_pin_states[pin] = LOW`). -/
def allocate_pin (s : ManagerState) (pin : Nat) (module_name : String)
    (_pin_mode : PinDir) : ManagerState × Bool :=
  if ¬ s.gpio_initialized then (s, false)
  else
    match normalize_pin s pin with
    | none => (s, false)
    | some np =>
      match s.allocated_pins.lookup np with
      | some current_module =>
        if current_module ≠ module_name then (s, false) else (s, true)
      | none =>
        ({ s with pin_states := dictSet s.pin_states np 0
                  allocated_pins := s.allocated_pins ++ [(np, module_name)] },
         true)

/-- `GPIOManager.release_pin(pin, module_name)`.  With the mock fallback
(`GPIO_AVAILABLE = False`) the `GPIO.cleanup(pin)` call is skipped, so only
the ownership record changes. -/
def release_pin (s : ManagerState) (pin : Nat) (module_name : String) :
    ManagerState :=
  match normalize_pin s pin with
  | none => s
  | some np =>
    match s.allocated_pins.lookup np with
    | some owner =>
      if owner = module_name then
        { s with allocated_pins := dictDel s.allocated_pins np }
      else s
    | none => s

/-- `GPIOManager.convert_pin(pin, from_mode, to_mode)`.  A `to_mode`
argument of `none` stands for Python's `to_mode=None`, which is replaced by
the manager's current `gpio_mode` (itself possibly `None`).  Only the
`gpio_mode` field of the state is consulted, so the conversion is passed
that field alone. -/
def convert_pin (gpio_mode : Option GpioMode) (pin : Nat)
    (from_mode : GpioMode) (to_mode : Option GpioMode) : Option Nat :=
  let t : Option GpioMode := match to_mode with
    | none => gpio_mode
    | some m => some m
  if some from_mode = t then some pin
  else if from_mode = GpioMode.bcm ∧ t = some GpioMode.board then
    bcm_to_board.lookup pin
  else if from_mode = GpioMode.board ∧ t = some GpioMode.bcm then
    board_to_bcm.lookup pin
  else none

/-- `GPIOManager.output(pin, value)`: Python's
`if normalized_pin and normalized_pin in self.allocated_pins` — `None` and
`0` are both falsy.  The mock `GPIO.output` writes the level dictionary and
never raises. -/
def outputPin (s : ManagerState) (pin : Nat) (value : Nat) :
    ManagerState × Bool :=
  match normalize_pin s pin with
  | none => (s, false)
  | some np =>
    if np ≠ 0 ∧ (s.allocated_pins.lookup np).isSome then
      ({ s with pin_states := dictSet s.pin_states np value }, true)
    else (s, false)

/-- `GPIOManager.input(pin)`: returns the mock line level
(`_pin_states.get(pin, LOW)`) when the pin passes the same truthiness and
allocation check as `output`, and `0` otherwise. -/
def inputPin (s : ManagerState) (pin : Nat) : Nat :=
  match normalize_pin s pin with
  | none => 0
  | some np =>
    if np ≠ 0 ∧ (s.allocated_pins.lookup np).isSome then
      (s.pin_states.lookup np).getD 0
    else 0

/-- `GPIOManager.cleanup_all(force=False)`.  With the mock fallback the
`GPIO.cleanup()` call is skipped (`GPIO_AVAILABLE` is false), and nothing in
the `try` block raises. -/
def cleanup_all (s : ManagerState) (force : Bool) : ManagerState :=
  if force ∨ s.allocated_pins.length > 0 then
    { s with allocated_pins := []
             gpio_initialized := false
             gpio_mode := none }
  else s

/-- The spec's description of `write(pin, level)` (claim C3), written from
the spec's words for comparison with the code's `outputPin`: the write is
permitted only when the *caller's* owner name matches the owner recorded
for the pin; otherwise it is a no-op reporting failure. -/
def write_claimed (s : ManagerState) (caller : String) (pin : Nat)
    (value : Nat) : ManagerState × Bool :=
  if s.allocated_pins.lookup pin = some caller then
    ({ s with pin_states := dictSet s.pin_states pin value }, true)
  else (s, false)

/-! ## HX711 ADC protocol (`src/hx711.py`)

`read_raw` is embedded over two input streams: `readyAt i` is the value of
the `i`-th readiness poll of the data line (`is_ready()`), and `bits i` the
level sampled from the data line after the `i`-th data clock pulse.  The
driven clock line and the samples are recorded as an event trace. -/

/-- One observable GPIO event of the HX711 protocol: the clock line driven
high or low, or the data line sampled (with the level seen). -/
inductive HxEv
  | sckHigh
  | sckLow
  | sampleDT (b : Bool)
deriving DecidableEq, Repr

/-- `HX711._set_gain_pulses`: extra clock pulses per configured gain. -/
def set_gain_pulses (gain : Nat) : Nat :=
  if gain = 128 then 1
  else if gain = 64 then 3
  else if gain = 32 then 2
  else 1

/-- The accumulator of the 24-iteration shift loop of `HX711.read_raw`
(`value = value << 1; if DT == HIGH: value += 1`), reading bit `i` first. -/
def shiftInBits (bits : Nat → Bool) : Nat → Nat → Nat → Nat
  | _, v, 0 => v
  | i, v, n + 1 => shiftInBits bits (i + 1) (2 * v + cond (bits i) 1 0) n

/-- The event trace of the 24-iteration shift loop of `HX711.read_raw`:
each iteration drives the clock high, drives it low, then samples DT. -/
def dataClockTrace (bits : Nat → Bool) : Nat → Nat → List HxEv
  | _, 0 => []
  | i, n + 1 =>
    HxEv.sckHigh :: HxEv.sckLow :: HxEv.sampleDT (bits i)
      :: dataClockTrace bits (i + 1) n

/-- The event trace of the gain-pulse loop of `HX711.read_raw`. -/
def gainClockTrace : Nat → List HxEv
  | 0 => []
  | n + 1 => HxEv.sckHigh :: HxEv.sckLow :: gainClockTrace n

/-- The 24-bit two's-complement conversion at the end of `HX711.read_raw`:
`if value & 0x800000: value |= 0xFF000000; value -= 0x100000000`. -/
def signExtend24 (value : Nat) : Int :=
  if value &&& 0x800000 ≠ 0 then
    ((value ||| 0xFF000000 : Nat) : Int) - 0x100000000
  else (value : Int)

/-- `HX711.read_raw` (hardware path): poll readiness up to 100 times; on
timeout the code falls back to a pseudorandom synthetic sample, modelled
here as `none`; otherwise shift in 24 bits, emit the gain pulses and
sign-extend the value. -/
def read_raw (readyAt : Nat → Bool) (bits : Nat → Bool)
    (gain_pulses : Nat) : Option (Int × List HxEv) :=
  if (List.range 100).any (fun i => readyAt i) then
    some (signExtend24 (shiftInBits bits 0 0 24),
          dataClockTrace bits 0 24 ++ gainClockTrace gain_pulses)
  else none

/-- Count of clock-rising-edge events in a trace. -/
def countSckHighs : List HxEv → Nat
  | [] => 0
  | HxEv.sckHigh :: t => countSckHighs t + 1
  | _ :: t => countSckHighs t

/-- Count of data-line samples in a trace. -/
def countSamples : List HxEv → Nat
  | [] => 0
  | HxEv.sampleDT _ :: t => countSamples t + 1
  | _ :: t => countSamples t

/-- Decides whether every clock-rising-edge event in a trace is immediately
followed by a data-line sample — the spec's claimed shape for the 24 data
pulses.  Meant to be applied to the data-pulse portion of a read trace
only, since the trailing gain pulses are sampled neither by the code nor
by the claim. -/
def samplesAfterRise (tr : List HxEv) : Bool :=
  (List.range tr.length).all fun i =>
    match tr.get? i with
    | some HxEv.sckHigh =>
      match tr.get? (i + 1) with
      | some (HxEv.sampleDT _) => true
      | _ => false
    | _ => true

/-- `HX711.get_weight(times)`, as a function of the value returned by
`read_average` (`raw_value`): `weight = (raw_value - offset) * coefficient;
return max(0, weight) if weight > 0 else 0`. -/
def get_weight (raw_value offset coefficient : ℚ) : ℚ :=
  let weight := (raw_value - offset) * coefficient
  if weight > 0 then max 0 weight else 0

/-! ## Buzzer tone synthesis (`src/beep.py`)

`BadAppleBuzzer.tone` is embedded over a stop-flag stream (`stopAt i` is
the value of `self.stop_playing` read at the top of cycle `i`) and a
toggle-fault stream (`errAt t` tells whether the `t`-th pin-toggle
attempt of this tone raises; cycle `i` attempts toggles `2*i` (high) and
`2*i + 1` (low)).  The `try` block of `tone` wraps the *whole* cycle loop,
so a raised toggle error ends the loop and is then logged once. -/

/-- One observable event of a tone: the buzzer pin driven high or low, a
`time.sleep` of the given number of seconds, or the `except` branch of
`tone` logging a toggle error. -/
inductive ToneEv
  | driveHigh
  | driveLow
  | sleepEv (seconds : ℚ)
  | errorLogged
deriving DecidableEq, Repr

/-- Python `int()` applied to an exact rational: truncation toward zero. -/
def pyTrunc (q : ℚ) : Int := if 0 ≤ q then ⌊q⌋ else ⌈q⌉

/-- The cycle loop of `BadAppleBuzzer.tone`, from cycle `i` with `n`
cycles remaining.  Returns the emitted events and whether a toggle raised
(ending the loop; the exception is caught by the surrounding `except`). -/
def toneLoop (stopAt errAt : Nat → Bool) (half_period : ℚ) :
    Nat → Nat → List ToneEv × Bool
  | _, 0 => ([], false)
  | i, n + 1 =>
    if stopAt i then ([], false)
    else if errAt (2 * i) then ([], true)
    else if errAt (2 * i + 1) then
      ([ToneEv.driveHigh, ToneEv.sleepEv half_period], true)
    else
      let r := toneLoop stopAt errAt half_period (i + 1) n
      (ToneEv.driveHigh :: ToneEv.sleepEv half_period
        :: ToneEv.driveLow :: ToneEv.sleepEv half_period :: r.1, r.2)

/-- `BadAppleBuzzer.tone(frequency, duration)` (duration in ms): returns
the trace of events.  Frequency 0 sleeps without toggling; otherwise
`cycles = int(duration / 1000 * frequency)` high/low cycles run under the
cooperative stop flag, and a toggle error ends the loop and is logged. -/
def tone (gpio_initialized : Bool) (stopAt errAt : Nat → Bool)
    (frequency duration : ℚ) : List ToneEv :=
  if gpio_initialized = false then []
  else if frequency = 0 then [ToneEv.sleepEv (duration / 1000)]
  else
    let period := 1 / frequency
    let half_period := period / 2
    let cycles := (pyTrunc (duration / 1000 * frequency)).toNat
    let r := toneLoop stopAt errAt half_period 0 cycles
    if r.2 then r.1 ++ [ToneEv.errorLogged] else r.1

/-- The note loop of `BadAppleBuzzer.play_melody`, abstracted over the
note table: each note `i` (a frequency/duration pair) is rendered by
`tone` under its own toggle-fault stream `errAt i`; `tone` catches toggle
errors itself, so the loop always reaches every note (stop flag not set).
Returns the per-note traces. -/
def play_melody (errAt : Nat → Nat → Bool) (notes : List (ℚ × ℚ)) :
    List (List ToneEv) :=
  notes.enum.map fun p => tone true (fun _ => false) (errAt p.1) p.2.1 p.2.2

/-- Count of pin-drive-high events in a tone trace. -/
def countHighs : List ToneEv → Nat
  | [] => 0
  | ToneEv.driveHigh :: t => countHighs t + 1
  | _ :: t => countHighs t

/-- Count of pin-drive-low events in a tone trace. -/
def countLows : List ToneEv → Nat
  | [] => 0
  | ToneEv.driveLow :: t => countLows t + 1
  | _ :: t => countLows t

/-- The trace of `n` complete high/low cycles at a given half period. -/
def fullCycles (half_period : ℚ) : Nat → List ToneEv
  | 0 => []
  | n + 1 =>
    ToneEv.driveHigh :: ToneEv.sleepEv half_period
      :: ToneEv.driveLow :: ToneEv.sleepEv half_period
      :: fullCycles half_period n

/-- The spec's description of `read(pin)` (claim C3), written from the
spec's words for comparison with the code's `inputPin`: the read returns
the line level only when the *caller's* owner name matches the recorded
owner, and the default low value `0` otherwise. -/
def read_claimed (s : ManagerState) (caller : String) (pin : Nat) : Nat :=
  if s.allocated_pins.lookup pin = some caller then
    (s.pin_states.lookup pin).getD 0
  else 0

/-- An initialized BOARD-mode registry in which pin 12 is owned by module
"A" and the line currently sits high. -/
def cexState : ManagerState :=
  { allocated_pins := [(12, "A")]
    gpio_mode := some GpioMode.board
    gpio_initialized := true
    mock_mode := some GpioMode.board
    pin_states := [(12, 1)] }

/-! ## Helper lemmas -/

theorem lor_two_pow_mul : ∀ (n v a : ℕ), v < 2 ^ n → v ||| 2 ^ n * a = v + 2 ^ n * a := by
  intro n
  induction n with
  | zero =>
    intro v a h
    interval_cases v
    simp
  | succ n ih =>
    intro v a h
    have hb : v = Nat.bit v.bodd v.div2 := (Nat.bit_decomp v).symm
    have ha : 2 ^ (n + 1) * a = Nat.bit false (2 ^ n * a) := by
      rw [Nat.bit_val]
      simp
      ring
    have hdiv : v.div2 < 2 ^ n := by
      have : v.div2 = v / 2 := Nat.div2_val v
      omega
    rw [hb, ha, Nat.lor_bit, ih _ _ hdiv]
    rw [Nat.bit_val, Nat.bit_val, Nat.bit_val]
    cases v.bodd <;> simp <;> ring

theorem lookup_append_of_none {l : List (Nat × String)} {k : Nat}
    (h : l.lookup k = none) (l' : List (Nat × String)) :
    (l ++ l').lookup k = l'.lookup k := by
  induction l with
  | nil => simp
  | cons a t ih =>
    rw [List.cons_append]
    cases a with
    | mk k' v =>
      simp only [List.lookup] at h ⊢
      cases hk : (k == k') with
      | true => simp [hk] at h
      | false =>
        simp only [hk] at h ⊢
        exact ih h

theorem lookup_mem {l : List (Nat × Nat)} {k v : Nat}
    (h : l.lookup k = some v) : (k, v) ∈ l := by
  induction l with
  | nil => simp [List.lookup] at h
  | cons a t ih =>
    cases a with
    | mk k' v' =>
      simp only [List.lookup] at h
      cases hk : (k == k') with
      | true =>
        simp only [hk] at h
        cases h
        have : k = k' := eq_of_beq hk
        subst this
        exact List.mem_cons_self _ _
      | false =>
        simp only [hk] at h
        exact List.mem_cons_of_mem _ (ih h)

theorem bcm_board_inverse :
    ∀ pr ∈ bcm_to_board, board_to_bcm.lookup pr.2 = some pr.1 := by decide

theorem board_bcm_inverse :
    ∀ pr ∈ board_to_bcm, bcm_to_board.lookup pr.2 = some pr.1 := by decide

theorem normalize_pin_of_mode {s : ManagerState} {m : GpioMode}
    (h : s.gpio_mode = some m) (p : Nat) : normalize_pin s p = some p := by
  cases m <;> simp [normalize_pin, h]

theorem allocate_pin_free {s : ManagerState} {m : GpioMode}
    (hinit : s.gpio_initialized = true) (hmode : s.gpio_mode = some m)
    {p : Nat} (hfree : s.allocated_pins.lookup p = none) (owner : String)
    (dir : PinDir) :
    allocate_pin s p owner dir =
      ({ s with pin_states := dictSet s.pin_states p 0
                allocated_pins := s.allocated_pins ++ [(p, owner)] },
       true) := by
  simp [allocate_pin, hinit, normalize_pin_of_mode hmode, hfree]

theorem allocate_pin_same {s : ManagerState} {m : GpioMode}
    (hinit : s.gpio_initialized = true) (hmode : s.gpio_mode = some m)
    {p : Nat} {owner : String}
    (hown : s.allocated_pins.lookup p = some owner) (dir : PinDir) :
    allocate_pin s p owner dir = (s, true) := by
  simp [allocate_pin, hinit, normalize_pin_of_mode hmode, hown]

theorem allocate_pin_other {s : ManagerState} {m : GpioMode}
    (hinit : s.gpio_initialized = true) (hmode : s.gpio_mode = some m)
    {p : Nat} {owner other : String}
    (hown : s.allocated_pins.lookup p = some owner) (hne : owner ≠ other)
    (dir : PinDir) :
    allocate_pin s p other dir = (s, false) := by
  simp [allocate_pin, hinit, normalize_pin_of_mode hmode, hown, hne]

theorem init_gpio_of_uninit {s : ManagerState} (h : s.gpio_initialized = false)
    (m : GpioMode) :
    init_gpio s m =
      ({ s with mock_mode := some m
                gpio_mode := some m
                gpio_initialized := true }, true) := by
  simp [init_gpio, h]

theorem init_gpio_of_diff {s : ManagerState} {m m' : GpioMode}
    (hi : s.gpio_initialized = true) (hm : s.gpio_mode = some m)
    (hne : m' ≠ m) : init_gpio s m' = (s, false) := by
  simp only [init_gpio, hi, if_true, hm]
  have : ¬ (some m = some m') := by
    intro hcon
    exact hne (Option.some.inj hcon).symm
  simp [this]

theorem init_gpio_of_same {s : ManagerState} {m : GpioMode}
    (hi : s.gpio_initialized = true) (hm : s.gpio_mode = some m) :
    init_gpio s m = (s, true) := by
  simp [init_gpio, hi, hm]

/-! ## Claim theorems: the pin registry -/

/-- Claim C1.  On an initialized registry with pin `p` free: allocating
`p` to `A` succeeds and records `A`; allocating it to `A` again succeeds
and changes nothing; allocating it to a different owner `B` fails and
changes nothing, so `A` stays the owner; and allocation on an
uninitialized registry always fails. -/
theorem claim_C1_allocate_ownership (s : ManagerState) (p : Nat)
    (A B : String) (dir : PinDir) (hAB : A ≠ B)
    (hinit : s.gpio_initialized = true) (m : GpioMode)
    (hmode : s.gpio_mode = some m)
    (hfree : s.allocated_pins.lookup p = none) :
    (allocate_pin s p A dir).2 = true
    ∧ (allocate_pin s p A dir).1.allocated_pins.lookup p = some A
    ∧ allocate_pin (allocate_pin s p A dir).1 p A dir
        = ((allocate_pin s p A dir).1, true)
    ∧ allocate_pin (allocate_pin s p A dir).1 p B dir
        = ((allocate_pin s p A dir).1, false)
    ∧ (allocate_pin (allocate_pin s p A dir).1 p B dir).1.allocated_pins.lookup p
        = some A
    ∧ (∀ s' : ManagerState, s'.gpio_initialized = false →
        ∀ (owner : String) (dir' : PinDir),
          allocate_pin s' p owner dir' = (s', false)) := by
  have h1 : allocate_pin s p A dir =
      ({ s with pin_states := dictSet s.pin_states p 0
                allocated_pins := s.allocated_pins ++ [(p, A)] }, true) :=
    allocate_pin_free hinit hmode hfree A dir
  have hlook : (s.allocated_pins ++ [(p, A)]).lookup p = some A := by
    rw [lookup_append_of_none hfree]
    simp [List.lookup]
  have h2 : (allocate_pin s p A dir).1.allocated_pins.lookup p = some A := by
    rw [h1]
    exact hlook
  have hinit1 : (allocate_pin s p A dir).1.gpio_initialized = true := by
    rw [h1]
    exact hinit
  have hmode1 : (allocate_pin s p A dir).1.gpio_mode = some m := by
    rw [h1]
    exact hmode
  have h3 : allocate_pin (allocate_pin s p A dir).1 p A dir
      = ((allocate_pin s p A dir).1, true) :=
    allocate_pin_same hinit1 hmode1 h2 dir
  have h4 : allocate_pin (allocate_pin s p A dir).1 p B dir
      = ((allocate_pin s p A dir).1, false) :=
    allocate_pin_other hinit1 hmode1 h2 hAB dir
  refine ⟨by rw [h1], h2, h3, h4, ?_, ?_⟩
  · rw [h4]
    exact h2
  · intro s' h' owner dir'
    simp [allocate_pin, h']

/-- Concrete instance of claim C1: fresh initialized BOARD registry, pin
12, owners "buzzer" and "led". -/
theorem claim_C1_witness :
    (allocate_pin
        { allocated_pins := []
          gpio_mode := some GpioMode.board
          gpio_initialized := true
          mock_mode := some GpioMode.board
          pin_states := [] } 12 "buzzer" PinDir.out).2 = true := by
  exact (claim_C1_allocate_ownership
    { allocated_pins := []
      gpio_mode := some GpioMode.board
      gpio_initialized := true
      mock_mode := some GpioMode.board
      pin_states := [] } 12 "buzzer" "led" PinDir.out
    (by decide) rfl GpioMode.board rfl rfl).1

/-- Claim C2.  The numbering mode is set exactly once: a first successful
`init_gpio(mode)` on an uninitialized registry fixes the mode; on an
initialized registry a different mode fails leaving the whole state
unchanged, and the same mode succeeds leaving the whole state unchanged
(no configuration is re-applied — the mock `setmode` record is untouched
too, since the result state is exactly `s`). -/
theorem claim_C2_mode_set_once :
    (∀ (s : ManagerState) (m : GpioMode), s.gpio_initialized = false →
      init_gpio s m =
        ({ s with mock_mode := some m
                  gpio_mode := some m
                  gpio_initialized := true }, true))
    ∧ (∀ (s : ManagerState) (m m' : GpioMode), s.gpio_initialized = true →
        s.gpio_mode = some m → m' ≠ m → init_gpio s m' = (s, false))
    ∧ (∀ (s : ManagerState) (m : GpioMode), s.gpio_initialized = true →
        s.gpio_mode = some m → init_gpio s m = (s, true)) := by
  refine ⟨?_, ?_, ?_⟩
  · intro s m h
    exact init_gpio_of_uninit h m
  · intro s m m' hi hm hne
    exact init_gpio_of_diff hi hm hne
  · intro s m hi hm
    exact init_gpio_of_same hi hm

/-- Concrete instance of claim C2: after initializing the fresh manager to
BOARD, asking for BCM fails and asking for BOARD again succeeds, both
leaving the state untouched. -/
theorem claim_C2_witness :
    init_gpio (init_gpio freshManager GpioMode.board).1 GpioMode.bcm
      = ((init_gpio freshManager GpioMode.board).1, false)
    ∧ init_gpio (init_gpio freshManager GpioMode.board).1 GpioMode.board
      = ((init_gpio freshManager GpioMode.board).1, true) := by
  constructor
  · exact claim_C2_mode_set_once.2.1 (init_gpio freshManager GpioMode.board).1
      GpioMode.board GpioMode.bcm rfl rfl (by decide)
  · exact claim_C2_mode_set_once.2.2 (init_gpio freshManager GpioMode.board).1
      GpioMode.board rfl rfl

/-- Claim C9.  Pin-number translation is a pure round trip: a successful
conversion from one scheme to the other converts back to the original pin
(whatever the manager's current mode field is — ownership state does not
even appear), and converting with identical source and target scheme
returns the pin unchanged. -/
theorem claim_C9_numbering_roundtrip :
    (∀ p q : Nat, bcm_to_board.lookup p = some q →
      board_to_bcm.lookup q = some p)
    ∧ (∀ p q : Nat, board_to_bcm.lookup p = some q →
        bcm_to_board.lookup q = some p)
    ∧ (∀ (g : Option GpioMode) (p : Nat) (m : GpioMode),
        convert_pin g p m (some m) = some p)
    ∧ (∀ (g g' : Option GpioMode) (p q : Nat),
        convert_pin g p GpioMode.bcm (some GpioMode.board) = some q →
          convert_pin g' q GpioMode.board (some GpioMode.bcm) = some p)
    ∧ (∀ (g g' : Option GpioMode) (p q : Nat),
        convert_pin g p GpioMode.board (some GpioMode.bcm) = some q →
          convert_pin g' q GpioMode.bcm (some GpioMode.board) = some p) := by
  have fwd : ∀ p q : Nat, bcm_to_board.lookup p = some q →
      board_to_bcm.lookup q = some p := by
    intro p q h
    exact bcm_board_inverse (p, q) (lookup_mem h)
  have bwd : ∀ p q : Nat, board_to_bcm.lookup p = some q →
      bcm_to_board.lookup q = some p := by
    intro p q h
    exact board_bcm_inverse (p, q) (lookup_mem h)
  refine ⟨fwd, bwd, ?_, ?_, ?_⟩
  · intro g p m
    simp [convert_pin]
  · intro g g' p q h
    simp only [convert_pin] at h ⊢
    simp at h
    simp [fwd p q h]
  · intro g g' p q h
    simp only [convert_pin] at h ⊢
    simp at h
    simp [bwd p q h]

/-- Concrete instance of claim C9: BCM pin 2 converts to BOARD pin 3 and
back. -/
theorem claim_C9_witness :
    convert_pin none 3 GpioMode.board (some GpioMode.bcm) = some 2 := by
  exact claim_C9_numbering_roundtrip.2.2.2.1 none none 2 3 (by decide)

/-- Claim C10.  `cleanup_all` with `force = false` and no allocated pins
is a complete no-op (ownership map, initialized flag and mode untouched),
so a later `init_gpio` with a different mode still fails; a non-empty
ownership map or `force = true` resets the map, the flag and the mode. -/
theorem claim_C10_cleanup_noop :
    (∀ s : ManagerState, s.allocated_pins = [] → cleanup_all s false = s)
    ∧ (∀ (s : ManagerState) (m m' : GpioMode), s.allocated_pins = [] →
        s.gpio_initialized = true → s.gpio_mode = some m → m' ≠ m →
          init_gpio (cleanup_all s false) m' = (cleanup_all s false, false))
    ∧ (∀ (s : ManagerState) (force : Bool),
        force = true ∨ s.allocated_pins ≠ [] →
          (cleanup_all s force).allocated_pins = []
          ∧ (cleanup_all s force).gpio_initialized = false
          ∧ (cleanup_all s force).gpio_mode = none) := by
  have hnoop : ∀ s : ManagerState, s.allocated_pins = [] →
      cleanup_all s false = s := by
    intro s h
    simp [cleanup_all, h]
  refine ⟨hnoop, ?_, ?_⟩
  · intro s m m' hempty hinit hmode hne
    rw [hnoop s hempty]
    exact init_gpio_of_diff hinit hmode hne
  · intro s force h
    have hcond : (force ∨ s.allocated_pins.length > 0) := by
      cases h with
      | inl h => exact Or.inl (by rw [h])
      | inr h =>
        right
        cases hl : s.allocated_pins with
        | nil => exact absurd hl h
        | cons a t => simp [hl]
    simp [cleanup_all, hcond]

/-- Concrete instance of claim C10: an initialized BOARD registry with no
allocations survives `cleanup_all(force=False)` unchanged and still
rejects BCM, while `force=True` resets it. -/
theorem claim_C10_witness :
    cleanup_all
      { allocated_pins := []
        gpio_mode := some GpioMode.board
        gpio_initialized := true
        mock_mode := some GpioMode.board
        pin_states := [] } false
    = { allocated_pins := []
        gpio_mode := some GpioMode.board
        gpio_initialized := true
        mock_mode := some GpioMode.board
        pin_states := [] }
    ∧ (cleanup_all
        { allocated_pins := [(12, "buzzer")]
          gpio_mode := some GpioMode.board
          gpio_initialized := true
          mock_mode := some GpioMode.board
          pin_states := [] } true).gpio_initialized = false := by
  constructor
  · exact claim_C10_cleanup_noop.1 _ rfl
  · exact (claim_C10_cleanup_noop.2.2 _ true (Or.inl rfl)).2.1

/-- Claim C3 counterexample.  The registry's write/read path does not
consult the caller at all: with pin 12 owned by "A" and the line high, the
code's `output` reports success and `input` returns the line level, even
though under the claim a call made by module "B" (a different owner) must
be a failing no-op (write) and must read the default 0.  The spec-derived
`write_claimed`/`read_claimed` disagree with the code at this input. -/
theorem claim_C3_counterexample :
    (outputPin cexState 12 1).2 = true
    ∧ inputPin cexState 12 = 1
    ∧ cexState.allocated_pins.lookup 12 = some "A"
    ∧ (write_claimed cexState "B" 12 1).2 = false
    ∧ read_claimed cexState "B" 12 = 0
    ∧ (outputPin cexState 12 1).2 ≠ (write_claimed cexState "B" 12 1).2
    ∧ inputPin cexState 12 ≠ read_claimed cexState "B" 12 := by
  refine ⟨rfl, rfl, rfl, ?_, ?_, ?_, ?_⟩ <;> decide

/-- Claim C3 (amended).  `output(p, level)` drives the line and reports
success exactly when the numbering mode is set, `p` is nonzero (Python
truthiness) and `p` is allocated to *some* owner — the caller's identity is
not consulted (the write/read API takes no owner argument); on failure the
state is untouched.  `input(p)` returns the stored line level under the
same condition and the default 0 otherwise. -/
theorem claim_C3_write_read_allocation_only (s : ManagerState) (p v : Nat) :
    ((outputPin s p v).2 = true ↔
      (s.gpio_mode.isSome ∧ p ≠ 0 ∧ (s.allocated_pins.lookup p).isSome))
    ∧ ((outputPin s p v).2 = true →
        (outputPin s p v).1 = { s with pin_states := dictSet s.pin_states p v })
    ∧ ((outputPin s p v).2 = false → (outputPin s p v).1 = s)
    ∧ inputPin s p =
        (if s.gpio_mode.isSome ∧ p ≠ 0 ∧ (s.allocated_pins.lookup p).isSome
         then (s.pin_states.lookup p).getD 0 else 0) := by
  cases hg : s.gpio_mode with
  | none => simp [outputPin, inputPin, normalize_pin, hg]
  | some m =>
    have hn : normalize_pin s p = some p := normalize_pin_of_mode hg p
    by_cases hp : p = 0
    · subst hp
      simp [outputPin, inputPin, hn, hg]
    · by_cases hl : (s.allocated_pins.lookup p).isSome
      · simp [outputPin, inputPin, hn, hg, hp, hl]
      · simp [outputPin, inputPin, hn, hg, hp, hl]

/-- Concrete instance of the amended claim C3: the successful write on
`cexState` stores the level. -/
theorem claim_C3_witness :
    (outputPin cexState 12 1).1
      = { cexState with pin_states := dictSet cexState.pin_states 12 1 } :=
  (claim_C3_write_read_allocation_only cexState 12 1).2.1 (by decide)

/-! ## Claim theorems: the HX711 driver -/

/-- Claim C5.  The 24-bit value shifted in by a read is sign-extended from
bit 23 into a signed integer: for every 24-bit `v`, the result is
`v - 2^24` when bit 23 is set and `v` otherwise; in particular raw
`0x800001` decodes to `-8388607` and `0x000001` to `1`. -/
theorem claim_C5_sign_extension :
    (∀ v : Nat, v < 2 ^ 24 →
      signExtend24 v = if v.testBit 23 then (v : Int) - 2 ^ 24 else (v : Int))
    ∧ signExtend24 0x800001 = -8388607
    ∧ signExtend24 0x000001 = 1 := by
  refine ⟨?_, by decide, by decide⟩
  intro v hv
  have ha : v &&& 0x800000 = (v.testBit 23).toNat * 2 ^ 23 := by
    have h23 : (0x800000 : ℕ) = 2 ^ 23 := by norm_num
    rw [h23, Nat.and_two_pow]
  cases hb : v.testBit 23 with
  | false =>
    rw [hb] at ha
    simp only [Bool.toNat_false, Nat.zero_mul] at ha
    simp [signExtend24, ha, hb]
  | true =>
    rw [hb] at ha
    simp only [Bool.toNat_true, Nat.one_mul] at ha
    have hcond : v &&& 0x800000 ≠ 0 := by
      rw [ha]
      norm_num
    have hor : v ||| 0xFF000000 = v + 2 ^ 24 * 255 := by
      have h255 : (0xFF000000 : ℕ) = 2 ^ 24 * 255 := by norm_num
      rw [h255]
      exact lor_two_pow_mul 24 v 255 hv
    simp only [signExtend24, hcond, if_true, hb, if_pos, ne_eq,
      not_false_eq_true]
    rw [hor]
    push_cast
    omega

/-- Concrete instance of claim C5 at `v = 1`. -/
theorem claim_C5_witness : signExtend24 1 = 1 := by
  have h := claim_C5_sign_extension.1 1 (by norm_num)
  rw [h]
  decide

/-- Claim C6.  `get_weight` returns `max(0, (raw_average − offset) ×
coefficient)`: it is never negative, and for positive coefficient any
averaged raw value below the offset yields weight exactly 0. -/
theorem claim_C6_weight_floor (raw offset coefficient : ℚ) :
    get_weight raw offset coefficient = max 0 ((raw - offset) * coefficient)
    ∧ 0 ≤ get_weight raw offset coefficient
    ∧ (0 < coefficient → raw < offset →
        get_weight raw offset coefficient = 0) := by
  have h1 : get_weight raw offset coefficient
      = max 0 ((raw - offset) * coefficient) := by
    simp only [get_weight]
    by_cases h : (raw - offset) * coefficient > 0
    · rw [if_pos h, max_eq_right h.le]
    · rw [if_neg h, max_eq_left (le_of_not_lt h)]
  refine ⟨h1, ?_, ?_⟩
  · rw [h1]
    exact le_max_left _ _
  · intro hc hro
    rw [h1]
    exact max_eq_left (mul_nonpos_of_nonpos_of_nonneg (by linarith) hc.le)

/-- Concrete instance of claim C6: raw average 100 below offset 200 with
unit coefficient weighs 0. -/
theorem claim_C6_witness : get_weight 100 200 1 = 0 :=
  (claim_C6_weight_floor 100 200 1).2.2 (by norm_num) (by norm_num)

theorem countSckHighs_append (l l' : List HxEv) :
    countSckHighs (l ++ l') = countSckHighs l + countSckHighs l' := by
  induction l with
  | nil => simp [countSckHighs]
  | cons a t ih =>
    cases a <;> simp [countSckHighs, ih]
    omega

theorem countSamples_append (l l' : List HxEv) :
    countSamples (l ++ l') = countSamples l + countSamples l' := by
  induction l with
  | nil => simp [countSamples]
  | cons a t ih =>
    cases a <;> simp [countSamples, ih]
    omega

theorem countSckHighs_data (bits : Nat → Bool) :
    ∀ (n i : Nat), countSckHighs (dataClockTrace bits i n) = n := by
  intro n
  induction n with
  | zero => intro i; rfl
  | succ n ih =>
    intro i
    simp [dataClockTrace, countSckHighs, ih]

theorem countSamples_data (bits : Nat → Bool) :
    ∀ (n i : Nat), countSamples (dataClockTrace bits i n) = n := by
  intro n
  induction n with
  | zero => intro i; rfl
  | succ n ih =>
    intro i
    simp [dataClockTrace, countSamples, ih]

theorem countSckHighs_gain : ∀ n : Nat,
    countSckHighs (gainClockTrace n) = n := by
  intro n
  induction n with
  | zero => rfl
  | succ n ih => simp [gainClockTrace, countSckHighs, ih]

theorem countSamples_gain : ∀ n : Nat,
    countSamples (gainClockTrace n) = 0 := by
  intro n
  induction n with
  | zero => rfl
  | succ n ih => simp [gainClockTrace, countSamples, ih]

theorem dataClockTrace_flatMap (bits : Nat → Bool) :
    ∀ (n i : Nat), dataClockTrace bits i n = (List.range n).flatMap
      (fun j => [HxEv.sckHigh, HxEv.sckLow, HxEv.sampleDT (bits (i + j))]) := by
  intro n
  induction n with
  | zero => intro i; rfl
  | succ n ih =>
    intro i
    rw [List.range_succ_eq_map, List.flatMap_cons, List.flatMap_map]
    have hfun : (fun a : Nat => [HxEv.sckHigh, HxEv.sckLow,
          HxEv.sampleDT (bits (i + a.succ))])
        = fun a => [HxEv.sckHigh, HxEv.sckLow,
            HxEv.sampleDT (bits (i + 1 + a))] := by
      funext a
      rw [show i + a.succ = i + 1 + a by omega]
    rw [hfun, ← ih (i + 1)]
    simp [dataClockTrace]

theorem shiftInBits_eq_sum (bits : Nat → Bool) : ∀ (n i v : Nat),
    shiftInBits bits i v n
      = v * 2 ^ n + ∑ j in Finset.range n, cond (bits (i + j)) (2 ^ (n - 1 - j)) 0 := by
  intro n
  induction n with
  | zero =>
    intro i v
    simp [shiftInBits]
  | succ n ih =>
    intro i v
    rw [shiftInBits, ih (i + 1)]
    rw [Finset.sum_range_succ' (fun j => cond (bits (i + j)) (2 ^ (n + 1 - 1 - j)) 0) n]
    have hsum : (∑ j in Finset.range n, cond (bits (i + (j + 1))) (2 ^ (n + 1 - 1 - (j + 1))) 0)
        = ∑ j in Finset.range n, cond (bits (i + 1 + j)) (2 ^ (n - 1 - j)) 0 := by
      refine Finset.sum_congr rfl fun j _ => ?_
      rw [show i + (j + 1) = i + 1 + j by omega,
          show n + 1 - 1 - (j + 1) = n - 1 - j by omega]
    rw [hsum]
    cases hbi : bits i <;> simp [hbi] <;> ring

/-- Claim C4 counterexample, restricted to the 24 data pulses.  Each data
pulse consists of three events (the two clock edges and the sample), under
the claimed ordering as much as under the code's, so on a successful read
the data-pulse portion of the trace is exactly its first `24 * 3` events
(first conjunct: on a concrete read it is the data-phase trace, the gain
pulses all lying beyond it).  On that portion the code samples the data
line only after the clock has been driven back low: some rising edge is
not immediately followed by a sample, falsifying the claimed pulse shape
(second conjunct) — while the ordering the claim describes, high / sample
/ low, does satisfy it (third conjunct), so the refutation turns on the
sampling position alone and not on the unsampled gain pulses. -/
theorem claim_C4_counterexample :
    ((read_raw (fun _ => true) (fun _ => false)
        (set_gain_pulses 128)).getD (0, [])).2.take (24 * 3)
      = dataClockTrace (fun _ => false) 0 24
    ∧ samplesAfterRise
        (((read_raw (fun _ => true) (fun _ => false)
            (set_gain_pulses 128)).getD (0, [])).2.take (24 * 3)) = false
    ∧ samplesAfterRise
        ((List.range 24).flatMap fun j =>
          [HxEv.sckHigh, HxEv.sampleDT ((fun _ => false) j), HxEv.sckLow])
        = true := by
  refine ⟨?_, ?_, ?_⟩ <;> decide

/-- Claim C4 (amended).  Every successful (non-timeout) raw read performs
exactly 24 data clock pulses — each pulse drives the clock high, drives it
low, and then samples the data line (immediately after the falling edge,
not after the rising edge) — shifting the sampled bits in MSB-first;
afterwards it issues exactly `set_gain_pulses gain` extra clock pulses,
which is 1, 3, 2 for gains 128, 64, 32 and 1 for any other gain value. -/
theorem claim_C4_clock_pulses (readyAt bits : Nat → Bool) (gain : Nat)
    (v : Int) (tr : List HxEv)
    (h : read_raw readyAt bits (set_gain_pulses gain) = some (v, tr)) :
    tr = (List.range 24).flatMap
        (fun j => [HxEv.sckHigh, HxEv.sckLow, HxEv.sampleDT (bits j)])
      ++ gainClockTrace (set_gain_pulses gain)
    ∧ countSckHighs tr = 24 + set_gain_pulses gain
    ∧ countSamples tr = 24
    ∧ set_gain_pulses 128 = 1 ∧ set_gain_pulses 64 = 3
    ∧ set_gain_pulses 32 = 2
    ∧ (gain ≠ 128 → gain ≠ 64 → gain ≠ 32 → set_gain_pulses gain = 1)
    ∧ v = signExtend24
        (∑ j in Finset.range 24, cond (bits j) (2 ^ (23 - j)) 0) := by
  simp only [read_raw] at h
  by_cases hr : ((List.range 100).any fun i => readyAt i) = true
  case neg =>
    rw [if_neg hr] at h
    exact absurd h (by simp)
  rw [if_pos hr] at h
  have hv : v = signExtend24 (shiftInBits bits 0 0 24) :=
    ((Prod.mk.injEq _ _ _ _).mp (Option.some.inj h).symm).1
  have htr : tr = dataClockTrace bits 0 24
      ++ gainClockTrace (set_gain_pulses gain) :=
    ((Prod.mk.injEq _ _ _ _).mp (Option.some.inj h).symm).2
  have hflat : dataClockTrace bits 0 24 = (List.range 24).flatMap
      (fun j => [HxEv.sckHigh, HxEv.sckLow, HxEv.sampleDT (bits j)]) := by
    rw [dataClockTrace_flatMap bits 24 0]
    simp
  have hsum : shiftInBits bits 0 0 24
      = ∑ j in Finset.range 24, cond (bits j) (2 ^ (23 - j)) 0 := by
    rw [shiftInBits_eq_sum bits 24 0 0]
    simp
  refine ⟨by rw [htr, hflat], ?_, ?_, rfl, rfl, rfl, ?_, by rw [hv, hsum]⟩
  · rw [htr, countSckHighs_append, countSckHighs_data, countSckHighs_gain]
  · rw [htr, countSamples_append, countSamples_data, countSamples_gain]
  · intro h128 h64 h32
    simp [set_gain_pulses, h128, h64, h32]

/-- Concrete instance of the amended claim C4: an all-low data line at
gain 128 yields 25 clock pulses in total. -/
theorem claim_C4_witness :
    countSckHighs ((read_raw (fun _ => true) (fun _ => false)
        (set_gain_pulses 128)).getD (0, [])).2 = 25 := by
  have h0 : read_raw (fun _ => true) (fun _ => false) (set_gain_pulses 128)
      = some (signExtend24 (shiftInBits (fun _ => false) 0 0 24),
              dataClockTrace (fun _ => false) 0 24
                ++ gainClockTrace (set_gain_pulses 128)) := rfl
  have h := (claim_C4_clock_pulses (fun _ => true) (fun _ => false) 128
    _ _ h0).2.1
  rw [h0]
  simpa using h

/-! ## Claim theorems: the buzzer driver -/

theorem countHighs_append (l l' : List ToneEv) :
    countHighs (l ++ l') = countHighs l + countHighs l' := by
  induction l with
  | nil => simp [countHighs]
  | cons a t ih =>
    cases a <;> simp [countHighs, ih]
    omega

theorem countHighs_fullCycles (hp : ℚ) : ∀ n : Nat,
    countHighs (fullCycles hp n) = n := by
  intro n
  induction n with
  | zero => rfl
  | succ n ih => simp [fullCycles, countHighs, ih]

theorem countLows_fullCycles (hp : ℚ) : ∀ n : Nat,
    countLows (fullCycles hp n) = n := by
  intro n
  induction n with
  | zero => rfl
  | succ n ih => simp [fullCycles, countLows, ih]

theorem toneLoop_no_stop_no_err {stopAt errAt : Nat → Bool}
    (hstop : ∀ i, stopAt i = false) (herr : ∀ t, errAt t = false)
    (hp : ℚ) : ∀ (n i : Nat),
    toneLoop stopAt errAt hp i n = (fullCycles hp n, false) := by
  intro n
  induction n with
  | zero => intro i; rfl
  | succ n ih =>
    intro i
    rw [toneLoop, hstop i, herr (2 * i), herr (2 * i + 1), ih (i + 1)]
    simp [fullCycles]

theorem toneLoop_err_at {stopAt errAt : Nat → Bool} {k : Nat}
    (hstop : ∀ i, stopAt i = false)
    (herr : ∀ t, errAt t = true ↔ t = 2 * k) (hp : ℚ) :
    ∀ n i, i ≤ k → k < i + n →
      toneLoop stopAt errAt hp i n = (fullCycles hp (k - i), true) := by
  intro n
  induction n with
  | zero =>
    intro i hik hki
    omega
  | succ n ih =>
    intro i hik hki
    by_cases hi : i = k
    · subst hi
      have he : errAt (2 * i) = true := (herr (2 * i)).mpr rfl
      rw [toneLoop, hstop i, he]
      simp [fullCycles]
    · have hik' : i + 1 ≤ k := by omega
      have he0 : errAt (2 * i) = false := by
        cases h : errAt (2 * i) with
        | false => rfl
        | true =>
          have := (herr (2 * i)).mp h
          omega
      have he1 : errAt (2 * i + 1) = false := by
        cases h : errAt (2 * i + 1) with
        | false => rfl
        | true =>
          have := (herr (2 * i + 1)).mp h
          omega
      rw [toneLoop, hstop i, he0, he1, ih (i + 1) hik' (by omega)]
      simp only
      rw [show k - i = (k - (i + 1)) + 1 by omega]
      simp [fullCycles]

/-- Claim C7.  With the stop flag never set and no toggle error, a tone at
frequency `f > 0` for `d ≥ 0` milliseconds performs exactly
`⌊d / 1000 · f⌋` high/low on-off pairs (that floor being nonnegative), so
`tone(440, 1000)` performs 440 pairs, and a tone at frequency 0 only
sleeps for the duration, performing zero toggles. -/
theorem claim_C7_tone_cycle_count (stopAt errAt : Nat → Bool) (f d : ℚ)
    (hstop : ∀ i, stopAt i = false) (herr : ∀ t, errAt t = false)
    (hf : 0 < f) (hd : 0 ≤ d) :
    countHighs (tone true stopAt errAt f d) = (⌊d / 1000 * f⌋).toNat
    ∧ countLows (tone true stopAt errAt f d) = (⌊d / 1000 * f⌋).toNat
    ∧ (0 : Int) ≤ ⌊d / 1000 * f⌋
    ∧ countHighs (tone true stopAt errAt 440 1000) = 440
    ∧ (∀ d' : ℚ, tone true stopAt errAt 0 d' = [ToneEv.sleepEv (d' / 1000)]) := by
  have hgen : ∀ g e : ℚ, 0 < g → 0 ≤ e →
      countHighs (tone true stopAt errAt g e) = (⌊e / 1000 * g⌋).toNat
      ∧ countLows (tone true stopAt errAt g e) = (⌊e / 1000 * g⌋).toNat := by
    intro g e hg he
    have hq : (0 : ℚ) ≤ e / 1000 * g :=
      mul_nonneg (div_nonneg he (by norm_num)) hg.le
    have htr : pyTrunc (e / 1000 * g) = ⌊e / 1000 * g⌋ := if_pos hq
    have hloop := toneLoop_no_stop_no_err hstop herr (1 / g / 2)
      ((pyTrunc (e / 1000 * g)).toNat) 0
    have htone : tone true stopAt errAt g e
        = fullCycles (1 / g / 2) ((pyTrunc (e / 1000 * g)).toNat) := by
      simp only [tone, if_neg (by simp : ¬ (true = false)),
        if_neg hg.ne', hloop]
      simp
    rw [htone, htr, countHighs_fullCycles, countLows_fullCycles]
    exact ⟨rfl, rfl⟩
  have h440 : countHighs (tone true stopAt errAt 440 1000) = 440 := by
    rw [(hgen 440 1000 (by norm_num) (by norm_num)).1]
    norm_num
    rfl
  refine ⟨(hgen f d hf hd).1, (hgen f d hf hd).2, ?_, h440, ?_⟩
  · exact Int.floor_nonneg.mpr
      (mul_nonneg (div_nonneg hd (by norm_num)) hf.le)
  · intro d'
    simp [tone]

/-- Concrete instance of claim C7: `tone(440, 1000)` yields 440 on/off
pairs. -/
theorem claim_C7_witness :
    countHighs (tone true (fun _ => false) (fun _ => false) 440 1000)
      = 440 :=
  (claim_C7_tone_cycle_count (fun _ => false) (fun _ => false) 440 1000
    (fun _ => rfl) (fun _ => rfl) (by norm_num) (by norm_num)).2.2.2.1

/-- Claim C8 counterexample.  A tone of 5 cycles whose very first pin
toggle raises produces no toggles at all — the loop does **not** continue
with the remaining cycles (which would give at least 4 on/off pairs); the
error is merely logged after the loop has been abandoned. -/
theorem claim_C8_counterexample :
    tone true (fun _ => false) (fun t => decide (t = 0)) 1 5000
      = [ToneEv.errorLogged]
    ∧ ¬ 4 ≤ countHighs
        (tone true (fun _ => false) (fun t => decide (t = 0)) 1 5000) := by
  have hc : pyTrunc ((5000 : ℚ) / 1000 * 1) = 5 := by
    rw [pyTrunc, if_pos (by norm_num : (0:ℚ) ≤ 5000 / 1000 * 1)]
    norm_num
  have htone : tone true (fun _ => false) (fun t => decide (t = 0)) 1 5000
      = [ToneEv.errorLogged] := by
    simp only [tone, if_neg (by simp : ¬ (true = false)),
      if_neg (by norm_num : ¬ (1 : ℚ) = 0), hc]
    rw [show ((5 : Int)).toNat = 5 from rfl]
    rw [toneLoop]
    simp [countHighs]
  refine ⟨htone, ?_⟩
  rw [htone]
  simp [countHighs]

/-- Claim C8 (amended).  A pin-toggle error during a tone is caught and
logged once at the tone level: the cycles before the failing toggle are
played, the remaining cycles of *that tone* are abandoned (here the first
failing toggle is the high toggle of cycle `k`, so exactly `k` on/off
pairs happen), and `tone` returns normally, so the melody is unaffected —
each note's trace depends only on that note's own toggle faults and the
melody renders an entry for every note. -/
theorem claim_C8_toggle_error_contained (stopAt errAt : Nat → Bool)
    (f d : ℚ) (k : Nat) (hstop : ∀ i, stopAt i = false)
    (herr : ∀ t, errAt t = true ↔ t = 2 * k) (hf : f ≠ 0)
    (hk : k < (pyTrunc (d / 1000 * f)).toNat) :
    tone true stopAt errAt f d
      = fullCycles (1 / f / 2) k ++ [ToneEv.errorLogged]
    ∧ countHighs (tone true stopAt errAt f d) = k
    ∧ (∀ (errA errB : Nat → Nat → Bool) (notes : List (ℚ × ℚ)) (i : Nat),
        (∀ t, errA i t = errB i t) →
          (play_melody errA notes)[i]? = (play_melody errB notes)[i]?)
    ∧ (∀ (errA : Nat → Nat → Bool) (notes : List (ℚ × ℚ)),
        (play_melody errA notes).length = notes.length) := by
  have hloop := toneLoop_err_at hstop herr (1 / f / 2)
    ((pyTrunc (d / 1000 * f)).toNat) 0 (Nat.zero_le k) (by omega)
  have htone : tone true stopAt errAt f d
      = fullCycles (1 / f / 2) k ++ [ToneEv.errorLogged] := by
    simp only [tone, if_neg (by simp : ¬ (true = false)), if_neg hf, hloop]
    simp
  refine ⟨htone, ?_, ?_, ?_⟩
  · rw [htone, countHighs_append, countHighs_fullCycles]
    rfl
  · intro errA errB notes i hAB
    have hfun : errA i = errB i := funext hAB
    simp only [play_melody, List.getElem?_map, List.getElem?_enum]
    cases notes[i]? with
    | none => rfl
    | some a => simp [hfun]
  · intro errA notes
    simp [play_melody]

/-- Concrete instance of the amended claim C8: with the failing toggle
being the high toggle of cycle 1 of a 5-cycle tone, exactly one on/off
pair happens. -/
theorem claim_C8_witness :
    countHighs (tone true (fun _ => false) (fun t => decide (t = 2)) 1 5000)
      = 1 := by
  have hk : (1 : Nat) < (pyTrunc ((5000 : ℚ) / 1000 * 1)).toNat := by
    rw [pyTrunc, if_pos (by norm_num : (0:ℚ) ≤ 5000 / 1000 * 1)]
    norm_num
  exact (claim_C8_toggle_error_contained (fun _ => false)
    (fun t => decide (t = 2)) 1 5000 1 (fun _ => rfl)
    (fun t => by rw [decide_eq_true_eq]) (by norm_num) hk).2.1

end SelfDiscipline
